import Mathlib

/-!
Verification of the TaskLm conversation controller and automation driver.

The Python source is shallowly embedded: pure functions become Lean
functions, dictionaries become association lists, the LLM / page-analyzer
collaborators become explicit oracle parameters (an `Option` value: `none`
models a transport error or an unparseable response, `some j` models a
successfully parsed JSON object), and code that can raise becomes
`Except String` with the Python exception name as the error payload.
-/

/-- A JSON value as returned by `json.loads` on the LLM output.
Python `None` is `.null`; objects are ordered association lists,
mirroring the insertion order of CPython dicts. -/
inductive JVal where
  | null : JVal
  | bool : Bool → JVal
  | str : String → JVal
  | num : Int → JVal
  | arr : List JVal → JVal
  | obj : List (String × JVal) → JVal

/-- A parsed JSON object (a Python dict at the top level). -/
abbrev JObj := List (String × JVal)

/-- `field in analysis` on a Python dict. -/
def hasKey : JObj → String → Bool
  | [], _ => false
  | (k', _) :: rest, k => if k' == k then true else hasKey rest k

/-- `analysis.get(field)` on a Python dict. -/
def getK : JObj → String → Option JVal
  | [], _ => none
  | (k', v) :: rest, k => if k' == k then some v else getK rest k

/-- `analysis[field] = value` on a Python dict: replace in place if the
key exists, append otherwise. -/
def setK : JObj → String → JVal → JObj
  | [], k, v => [(k, v)]
  | (k', v') :: rest, k, v =>
    if k' == k then (k, v) :: rest else (k', v') :: setK rest k v

/-- `if field not in analysis: analysis[field] = v` -/
def ensureField (o : JObj) (k : String) (v : JVal) : JObj :=
  if hasKey o k then o else setK o k v

theorem getK_setK_self (o : JObj) (k : String) (v : JVal) :
    getK (setK o k v) k = some v := by
  induction o with
  | nil => simp [setK, getK]
  | cons kv rest ih =>
    obtain ⟨k', v'⟩ := kv
    by_cases h : k' = k
    · simp [setK, h, getK]
    · simp [setK, h, getK, ih]

theorem getK_setK_ne (o : JObj) (k g : String) (v : JVal) (h : g ≠ k) :
    getK (setK o k v) g = getK o g := by
  induction o with
  | nil => simp [setK, getK, Ne.symm h]
  | cons kv rest ih =>
    obtain ⟨k', v'⟩ := kv
    by_cases hk : k' = k
    · subst hk
      simp [setK, getK, Ne.symm h]
    · by_cases hg : k' = g
      · subst hg
        simp [setK, getK, hk]
      · simp [setK, getK, hk, hg, ih]

theorem hasKey_eq_isSome (o : JObj) (k : String) :
    hasKey o k = (getK o k).isSome := by
  induction o with
  | nil => simp [hasKey, getK]
  | cons kv rest ih =>
    obtain ⟨k', v'⟩ := kv
    by_cases h : k' = k
    · simp [hasKey, getK, h]
    · simp [hasKey, getK, h, ih]

theorem hasKey_setK_self (o : JObj) (k : String) (v : JVal) :
    hasKey (setK o k v) k = true := by
  rw [hasKey_eq_isSome, getK_setK_self]
  rfl

theorem hasKey_setK_ne (o : JObj) (k g : String) (v : JVal) (h : g ≠ k) :
    hasKey (setK o k v) g = hasKey o g := by
  rw [hasKey_eq_isSome, hasKey_eq_isSome, getK_setK_ne o k g v h]

theorem hasKey_ensureField_self (o : JObj) (k : String) (v : JVal) :
    hasKey (ensureField o k v) k = true := by
  unfold ensureField
  by_cases h : hasKey o k
  · simp [h]
  · simp only [h, if_neg, Bool.false_eq_true, if_false]
    exact hasKey_setK_self o k v

theorem hasKey_ensureField_mono (o : JObj) (k g : String) (v : JVal)
    (h : hasKey o g = true) : hasKey (ensureField o k v) g = true := by
  unfold ensureField
  by_cases hk : hasKey o k
  · simpa [hk]
  · simp only [hk, Bool.false_eq_true, if_false]
    by_cases hg : g = k
    · subst hg; exact hasKey_setK_self o g v
    · rw [hasKey_setK_ne o k g v hg]; exact h

theorem getK_ensureField_ne (o : JObj) (k g : String) (v : JVal) (h : g ≠ k) :
    getK (ensureField o k v) g = getK o g := by
  unfold ensureField
  by_cases hk : hasKey o k
  · simp [hk]
  · simp only [hk, Bool.false_eq_true, if_false]
    exact getK_setK_ne o k g v h

theorem hasKey_ensureField_ne (o : JObj) (k g : String) (v : JVal) (h : g ≠ k) :
    hasKey (ensureField o k v) g = hasKey o g := by
  rw [hasKey_eq_isSome, hasKey_eq_isSome, getK_ensureField_ne o k g v h]

theorem getK_ensureField_absent (o : JObj) (k : String) (v : JVal)
    (h : hasKey o k = false) : getK (ensureField o k v) k = some v := by
  unfold ensureField
  simp only [h, Bool.false_eq_true, if_false]
  exact getK_setK_self o k v

/-! ## Data model (web_scraper_meta_agent.py) -/

/-- One entry of `context_history`. -/
structure ChatMsg where
  role : String
  content : String
deriving Repr, DecidableEq

/-- One cached page analysis (the parts of the analyzer collaborator's
dict that the controller reads: `extractable_data.primary_fields` and
`page_type`; `none` models an absent key). -/
structure PageAnalysis where
  extractable_primary : Option (List String)
  page_type : Option String
deriving Repr, DecidableEq

/-- The `ScrapingProject` dataclass. `data_requirements` is a dict with
recognized keys; it is flattened into the fields `page_analyses`
(absent key behaves like the empty map), `final_analysis` and
`generated_file`. -/
structure ScrapingProject where
  user_id : Int := 1
  project_name : String := ""
  target_urls : List String := []
  page_analyses : List (String × PageAnalysis) := []
  final_analysis : Option JObj := none
  generated_file : Option String := none
  context_history : List ChatMsg := []
  status : String := "link_collection"

/-- A fresh `ScrapingProject(user_id=user_id)`. -/
def emptyProject : ScrapingProject := {}

/-! ## Fallback URL detection (`_create_fallback_analysis`, line 206)

The regex `http[s]?://(?:[a-zA-Z]|[0-9]|[$-_@.&+]|[!*\(\),]|(?:%..))+`
is implemented directly: `[$-_]` is the character range 0x24..0x5F, which
already contains `@.&+*\(),%` and the hex digits, so one repetition
matches exactly one character of the union below. -/

/-- One character of the repeated character class of the URL regex. -/
def urlChar (c : Char) : Bool :=
  c.isAlpha || c.isDigit || ('$' ≤ c && c ≤ '_') || c == '!'

/-- Match a literal character sequence at the head of the input,
returning the rest on success. -/
def leadMatch : List Char → List Char → Option (List Char)
  | [], cs => some cs
  | _, [] => none
  | p :: ps, c :: cs => if c == p then leadMatch ps cs else none

/-- Greedily take the maximal run of `urlChar` characters. -/
def takeUrlRun : List Char → List Char × List Char
  | [] => ([], [])
  | c :: cs =>
    if urlChar c then
      let (r, rest) := takeUrlRun cs
      (c :: r, rest)
    else ([], c :: cs)

/-- Try to match the URL regex at the current position (the optional `s`
is tried greedily first, as the regex engine does). -/
def tryUrlAt (cs : List Char) : Option (List Char × List Char) :=
  match leadMatch "https://".data cs with
  | some rest =>
    match takeUrlRun rest with
    | ([], _) => none
    | (run, rest') => some ("https://".data ++ run, rest')
  | none =>
    match leadMatch "http://".data cs with
    | some rest =>
      match takeUrlRun rest with
      | ([], _) => none
      | (run, rest') => some ("http://".data ++ run, rest')
    | none => none

/-- `re.findall` scanning: leftmost, non-overlapping; on failure advance
one character. Fuel is the input length (each step consumes at least one
character). -/
def findallAux : Nat → List Char → List String
  | 0, _ => []
  | _, [] => []
  | fuel + 1, c :: cs =>
    match tryUrlAt (c :: cs) with
    | some (m, rest) => String.mk m :: findallAux fuel rest
    | none => findallAux fuel cs

/-- `re.findall(url_pattern, user_message)`. -/
def findallUrls (s : String) : List String :=
  findallAux s.length s.data

/-! ## RequirementAnalyzer (`analyze_scraping_requirements`) -/

/-- `_get_default_value` (web_scraper_meta_agent.py line 188): the
defaults table; `.get(field, None)` yields Python `None` (here `.null`)
for a field the table does not know — in particular for the required
fields `next_action` and `confidence`. -/
def getDefaultValue (field : String) : JVal :=
  if field = "stage" then .str "conversation_deepening"
  else if field = "response_message" then
    .str "I would love to help you with web scraping! Tell me about your project - what are you trying to achieve and why do you need this data?"
  else if field = "understanding_level" then .str "surface"
  else if field = "next_focus" then .str "business_case"
  else if field = "probing_questions" then .arr []
  else if field = "detected_urls" then .arr []
  else if field = "insights_gathered" then .arr []
  else .null

/-- The validation loop of `analyze_scraping_requirements` (lines
167-179): back-fill the required fields from `_get_default_value`, then
ensure the three list fields exist. -/
def validateAnalysisFields (j : JObj) : JObj :=
  let j := ensureField j "stage" (getDefaultValue "stage")
  let j := ensureField j "response_message" (getDefaultValue "response_message")
  let j := ensureField j "next_action" (getDefaultValue "next_action")
  let j := ensureField j "confidence" (getDefaultValue "confidence")
  let j := ensureField j "probing_questions" (.arr [])
  let j := ensureField j "detected_urls" (.arr [])
  ensureField j "insights_gathered" (.arr [])

/-- `_create_fallback_analysis` (lines 201-226): deterministic analysis
used on any LLM transport or parse failure. -/
def create_fallback_analysis (user_message : String) : JObj :=
  let detected_urls := findallUrls user_message
  let response :=
    match detected_urls with
    | [] => "I would love to help you with web scraping! Tell me about your project - what are you trying to achieve? Are you building something for business, research, or personal use?"
    | u :: rest =>
      "Great! I can see you want to work with " ++ u ++
      (if rest.length > 0 then "and others" else "") ++
      ". Tell me more about your project - what specific information are you looking to extract from these sites and what will you do with that data?"
  let understanding := if detected_urls.isEmpty then "surface" else "getting_deeper"
  let focus := if detected_urls.isEmpty then "business_case" else "specific_data"
  [("stage", .str "conversation_deepening"),
   ("response_message", .str response),
   ("probing_questions", .arr [.str "What is the ultimate goal of collecting this data?"]),
   ("detected_urls", .arr (detected_urls.map .str)),
   ("understanding_level", .str understanding),
   ("next_focus", .str focus),
   ("insights_gathered", .arr [])]

/-- `str.split(sep)` on character lists: leftmost, non-overlapping
occurrences of the (non-empty) separator cut the string; a trailing
separator yields a final empty piece, as in Python. Fuel is the input
length (each step consumes at least one character). -/
def pySplitAux (sep : List Char) : Nat → List Char → List Char → List (List Char)
  | _, acc, [] => [acc.reverse]
  | 0, acc, rest => [acc.reverse ++ rest]
  | fuel + 1, acc, c :: cs =>
    match leadMatch sep (c :: cs) with
    | some rest => acc.reverse :: pySplitAux sep fuel [] rest
    | none => pySplitAux sep fuel (c :: acc) cs

/-- Python `s.split(sep)` for a non-empty separator. -/
def pySplit (s sep : String) : List String :=
  (pySplitAux sep.data s.data.length [] s.data).map String.mk

/-- `url.split("//")[1].split("/")[0]`: raises `IndexError` when the URL
contains no `//` (lines 125 and 1456). -/
def domainOf (url : String) : Except String String :=
  match (pySplit url "//").get? 1 with
  | none => .error "IndexError"
  | some t => .ok ((pySplit t "/").headD "")

/-- The list comprehension over URLs: the first malformed URL raises. -/
def domainsOf : List String → Except String (List String)
  | [] => .ok []
  | u :: us => do
    let d ← domainOf u
    let ds ← domainsOf us
    .ok (d :: ds)

/-- `url` has a `//` so that `split("//")[1]` does not raise. -/
def wellFormedUrl (url : String) : Bool :=
  ((pySplit url "//").get? 1).isSome

/-- `list(set(xs))` with CPython's hash iteration order abstracted to
first-occurrence order (no claim depends on the order of the result). -/
def dedupFirstAux : List String → List String → List String
  | [], _ => []
  | x :: xs, seen =>
    if seen.contains x then dedupFirstAux xs seen
    else x :: dedupFirstAux xs (x :: seen)

def dedupFirst (l : List String) : List String := dedupFirstAux l []

/-- `_format_project_summary_message` (line 1501): the literal prose is
abridged; the interpolated data (domains joined with a comma, URL count)
is kept. No claim inspects this text. -/
def format_project_summary_message (p : ScrapingProject) (domains : List String) : String :=
  "PROJECT SUMMARY AND SCHEMA. Target Sites: " ++ String.intercalate ", " domains ++
  ". Total URLs: " ++ toString p.target_urls.length ++
  ". Is there anything else you would like to clarify or modify about this scraping project?"

/-- `_create_fallback_summary` (lines 1452-1499): the deterministic final
summary used when the summary LLM call fails. Computing the domain list
evaluates `url.split("//")[1]` on every stored URL and can raise. -/
def create_fallback_summary (p : ScrapingProject) : Except String JObj :=
  match domainsOf p.target_urls with
  | .error e => .error e
  | .ok domainsAll =>
  let domains := dedupFirst domainsAll
  let all_fields := p.page_analyses.foldl
    (fun acc kv => acc ++ (kv.2.extractable_primary.getD [])) []
  let unique_fields := (dedupFirst all_fields).take 10
  let schema_fields := unique_fields.map (fun f =>
    JVal.obj [("field_name", .str f), ("data_type", .str "string"),
              ("description", .str ("Data from " ++ f ++ " field")),
              ("source", .str "webpage content")])
  .ok [("stage", .str "project_summary_and_schema"),
       ("response_message", .str (format_project_summary_message p domains)),
       ("project_summary", .obj
         [("project_name", .str "Web Scraping Project"),
          ("objective", .str "Data extraction from target websites"),
          ("target_websites", .arr (domains.map .str)),
          ("use_case", .str "Data analysis and monitoring"),
          ("frequency", .str "As needed")]),
       ("data_schema", .obj
         [("primary_data", .arr schema_fields),
          ("secondary_data", .arr []),
          ("output_structure", .str "JSON format with structured data fields")]),
       ("technical_requirements", .obj
         [("scraping_method", .str "HTTP requests with parsing"),
          ("complexity_level", .str "medium"),
          ("special_considerations", .arr [.str "Rate limiting", .str "Data validation"]),
          ("estimated_setup_time", .str "2-4 hours")]),
       ("next_steps", .arr [.str "Generate scraper code", .str "Test and validate", .str "Deploy solution"]),
       ("final_question", .str "Is there anything else you would like to clarify or modify about this scraping project?")]

/-- `_generate_final_project_summary` (lines 1391-1450): on LLM success
the parsed JSON is returned verbatim (no validation, no forced stage);
on any failure the deterministic fallback summary is used. `llmSummary`
is the oracle for the summary LLM call. -/
def generate_final_project_summary (llmSummary : Option JObj)
    (p : ScrapingProject) : Except String JObj :=
  match llmSummary with
  | some j => .ok j
  | none => create_fallback_summary p

/-- The forcing-rule guard (line 83): `exchange_count >= 3 and
project.target_urls and project.data_requirements.get("page_analyses")`.
`exchange_count = len(context_history) // 2`. -/
def forcingGuard (p : ScrapingProject) : Bool :=
  decide (p.context_history.length / 2 ≥ 3) &&
  !p.target_urls.isEmpty && !p.page_analyses.isEmpty

/-- `analyze_scraping_requirements` (lines 77-186). `llmMain` is the
oracle for the main LLM call (`none` = transport error or unparseable
JSON, both of which reach the fallback). Before the LLM call, the system
context embeds `url.split("//")[1].split("/")[0]` for every key of
`page_analyses` (line 125), which raises on a malformed key. -/
def analyze_scraping_requirements (llmMain llmSummary : Option JObj)
    (user_message : String) (p : ScrapingProject) : Except String JObj :=
  if forcingGuard p then generate_final_project_summary llmSummary p
  else
    match domainsOf (p.page_analyses.map (·.1)) with
    | .error e => .error e
    | .ok _ =>
      match llmMain with
      | some j => .ok (validateAnalysisFields j)
      | none => .ok (create_fallback_analysis user_message)

/-! ## ConversationController (`handle_message`) -/

/-- Read `analysis["detected_urls"]` as a list of URL strings (the
declared type of `target_urls` is `List[str]`; non-string entries in an
LLM-returned list are outside the modelled universe and dropped). -/
def strListOf : Option JVal → List String
  | some (.arr xs) => xs.filterMap (fun v => match v with | .str s => some s | _ => none)
  | _ => []

/-- `analysis.get("stage") == "project_summary_and_schema"` -/
def stageIsSummary (analysis : JObj) : Bool :=
  match getK analysis "stage" with
  | some (.str s) => s == "project_summary_and_schema"
  | _ => false

/-- `_analyze_and_present_urls` (lines 503-550) restricted to its state
effect: for each of the first 3 new URLs, ask the page-analyzer
collaborator (`pageOracle`; `none` = failure, reported as a soft warning)
and store each success under its URL. All exceptions are caught inside. -/
def setPA : List (String × PageAnalysis) → String → PageAnalysis →
    List (String × PageAnalysis)
  | [], k, v => [(k, v)]
  | (k', v') :: rest, k, v =>
    if k' == k then (k, v) :: rest else (k', v') :: setPA rest k v

def analyzeAndStoreUrls (pageOracle : String → Option PageAnalysis)
    (urls : List String) (p : ScrapingProject) : ScrapingProject :=
  match urls with
  | [] => p
  | u :: rest =>
    match pageOracle u with
    | some a =>
      analyzeAndStoreUrls pageOracle rest { p with page_analyses := setPA p.page_analyses u a }
    | none => analyzeAndStoreUrls pageOracle rest p

/-- Lines 407-414 of `handle_message`: the detected URLs not already in
`target_urls` are appended (duplicates inside one turn's `detected_urls`
all pass the `not in` filter), and the first 3 newly added URLs are sent
to the page analyzer. -/
def applyDetectedUrls (pageOracle : String → Option PageAnalysis)
    (analysis : JObj) (p : ScrapingProject) : ScrapingProject :=
  let detected := strListOf (getK analysis "detected_urls")
  if detected.isEmpty then p
  else
    let new_urls := detected.filter (fun u => !p.target_urls.contains u)
    if new_urls.isEmpty then p
    else
      analyzeAndStoreUrls pageOracle (new_urls.take 3)
        { p with target_urls := p.target_urls ++ new_urls }

/-- Lines 417-418 of `handle_message`: `if analysis.get("stage"):
project.status = analysis["stage"]` — the status is overwritten with any
truthy stage value, with no ordering check. -/
def applyStage (analysis : JObj) (p : ScrapingProject) : ScrapingProject :=
  match getK analysis "stage" with
  | some (.str s) => if s = "" then p else { p with status := s }
  | _ => p

/-- `handle_message` (lines 384-432). Appends the user message, runs the
analyzer, then either the final-summary branch (store `final_analysis`,
status `awaiting_final_confirmation`, no URL processing) or the normal
branch: append detected URLs not already present, analyze the first 3 new
ones, overwrite `status` with the analysis stage (if truthy), append the
assistant reply. An uncaught exception leaves the handler (modelled as
`.error`). -/
def handle_message (llmMain llmSummary : Option JObj)
    (pageOracle : String → Option PageAnalysis)
    (user_message : String) (p : ScrapingProject) : Except String ScrapingProject :=
  let pA := { p with context_history := p.context_history ++ [⟨"user", user_message⟩] }
  match analyze_scraping_requirements llmMain llmSummary user_message pA with
  | .error e => .error e
  | .ok analysis =>
    if stageIsSummary analysis then
      .ok { pA with status := "awaiting_final_confirmation", final_analysis := some analysis }
    else
      match getK analysis "response_message" with
      | some (.str s) =>
        let p2 := applyStage analysis (applyDetectedUrls pageOracle analysis pA)
        .ok { p2 with context_history := p2.context_history ++ [⟨"assistant", s⟩] }
      | some _ => .error "TypeError"
      | none => .error "KeyError"

/-! ## AutomationDriver (goose.py) -/

/-- A file of the working directory as seen by `find_generated_file`:
its name and its `stat().st_mtime` (seconds). -/
structure FileEntry where
  name : String
  mtime : Int
deriving Repr, DecidableEq

/-- `Path(".").glob(pattern)` for the star patterns the driver uses
(`*.py`, `*.txt`, ...): a leading `*` matches any name with the given
tail; a pattern without `*` matches only the identical name. -/
def globMatch (pattern name : String) : Bool :=
  match pattern.data with
  | '*' :: tail => (name.data.drop (name.data.length - tail.length)) == tail && name.data.length ≥ tail.length
  | _ => pattern == name

/-- The collection loop of `find_generated_file` (lines 123-128): all
files matching any pattern, in pattern order, excluding the driver's own
script `goose.py`. -/
def foundFiles (dir : List FileEntry) (patterns : List String) : List FileEntry :=
  patterns.bind (fun pat =>
    dir.filter (fun f => globMatch pat f.name && f.name != "goose.py"))

/-- `max(found_files, key=mtime)`: keeps the earlier element on ties,
as Python's `max` does. -/
def maxByMtime : List FileEntry → Option FileEntry
  | [] => none
  | f :: fs => some (fs.foldl (fun acc g => if g.mtime > acc.mtime then g else acc) f)

/-- `find_generated_file` (lines 106-148): the most recently modified
match is returned iff it was modified less than 120 seconds before
`now` (`time.time()`). -/
def find_generated_file (dir : List FileEntry) (patterns : List String)
    (now : Int) : Option FileEntry :=
  match maxByMtime (foundFiles dir patterns) with
  | none => none
  | some f => if now - f.mtime < 120 then some f else none

/-- The behaviour of the wrapped external process during `cleanup`
(lines 226-249): whether it is alive at the first poll, and whether
writing the graceful `exit` command to its stdin raises
(e.g. `BrokenPipeError`); the polls after the graceful wait and after
`terminate()`. -/
structure ProcBehavior where
  alive0 : Bool
  exitCmdOk : Bool
  alive1 : Bool
  alive2 : Bool
deriving Repr, DecidableEq

/-- Whether the process is still alive when `cleanup()` returns. The
whole escalation sits in one `try`: if the `exit` write raises, the
`except` swallows the exception and `terminate`/`kill` are never
reached. `kill()` ends the process in the model. -/
def aliveAfterCleanup (b : ProcBehavior) : Bool :=
  if !b.alive0 then false          -- already exited, every branch skipped
  else if !b.exitCmdOk then true   -- write raised; escalation skipped
  else if !b.alive1 then false     -- exited after the graceful exit command
  else if !b.alive2 then false     -- exited after terminate()
  else false                       -- killed

/-- The environment of one `run_automation` call (lines 251-300):
outcomes of `start_goose_session` and `send_prompt` (both catch their own
exceptions and return a Bool), the directory snapshots and clock at the
two `find_generated_file` calls, whether the bare retry write
`process.stdin.write("\n")` raises (caught by the outer
`except Exception` handler), the outcome of `execute_file_background`,
and the process behaviour seen by `cleanup`. -/
structure SessionBehavior where
  startOk : Bool
  sendOk : Bool
  dir1 : List FileEntry
  now1 : Int
  retryWriteRaises : Bool
  dir2 : List FileEntry
  now2 : Int
  execOk : Bool
  proc : ProcBehavior

/-- The observable outcome of `run_automation`: the returned pair, the
`monitoring` flag (cleared by `cleanup` on every path) and whether the
external process is still alive. -/
structure RunResult where
  success : Bool
  file : Option FileEntry
  monitoringAfter : Bool
  aliveAfter : Bool
deriving Repr, DecidableEq

/-- `run_automation` (lines 251-300), with the `finally: cleanup()`
translated into every exit path. `except KeyboardInterrupt` and
`except Exception` both return `(False, None)`, so no exception escapes
to the caller; the function is total. -/
def run_automation (b : SessionBehavior) (patterns : List String) : RunResult :=
  if !b.startOk then
    ⟨false, none, false, aliveAfterCleanup b.proc⟩
  else if !b.sendOk then
    ⟨false, none, false, aliveAfterCleanup b.proc⟩
  else
    match find_generated_file b.dir1 patterns b.now1 with
    | some f =>
      if b.execOk then ⟨true, some f, false, aliveAfterCleanup b.proc⟩
      else ⟨false, some f, false, aliveAfterCleanup b.proc⟩
    | none =>
      if b.retryWriteRaises then
        ⟨false, none, false, aliveAfterCleanup b.proc⟩
      else
        match find_generated_file b.dir2 patterns b.now2 with
        | some f =>
          if b.execOk then ⟨true, some f, false, aliveAfterCleanup b.proc⟩
          else ⟨false, some f, false, aliveAfterCleanup b.proc⟩
        | none => ⟨false, none, false, aliveAfterCleanup b.proc⟩

/-! ## GenerationOrchestrator (`_handle_generate_scraper`) -/

/-- The outcome `_handle_generate_scraper` reports to the user. -/
inductive GenOutcome where
  | generated : FileEntry → GenOutcome
  | failed : GenOutcome
deriving Repr, DecidableEq

/-- Result processing of `_handle_generate_scraper` (lines 1134-1211):
`if success and generated_file:` reports success, sets the status to
`scraper_generated` and stores the file path; every other combination
reports generation failure and leaves the project untouched. -/
def handle_generation_result (success : Bool) (file : Option FileEntry)
    (p : ScrapingProject) : GenOutcome × ScrapingProject :=
  match success, file with
  | true, some f =>
    (.generated f, { p with status := "scraper_generated", generated_file := some f.name })
  | _, _ => (.failed, p)

/-- The polling loop of `_handle_generate_scraper` (lines 1107-1121):
`while elapsed < 120: if future.done(): break; sleep(5); elapsed += 5`.
`done k` is whether the worker future is done at the check after `k`
sleeps; the result is the number of 5-second sleeps performed. The fuel
24 is the static bound `120 / 5` of the loop. -/
def generationPollGo (done : Nat → Bool) : Nat → Nat → Nat
  | 0, k => k
  | fuel + 1, k => if done k then k else generationPollGo done fuel (k + 1)

def generationPollSleeps (done : Nat → Bool) : Nat :=
  generationPollGo done 24 0

/-- After the loop (lines 1122-1128): if the future is done its result is
used; otherwise the timeout outcome `success, generated_file = False,
None` is produced. -/
def generation_outcome (done : Nat → Bool)
    (workerResult : Bool × Option FileEntry) : Bool × Option FileEntry :=
  if done (generationPollSleeps done) then workerResult else (false, none)

/-! ## main_agent.py requirement analyzer back-filling -/

/-- `_get_default_field_value` (main_agent.py lines 166-175). -/
def get_default_field_value (field : String) : JVal :=
  if field = "needs_more_info" then .bool false
  else if field = "response_message" then
    .str "I understand you need help. Let me connect you with our specialists."
  else if field = "confidence" then .str "medium"
  else if field = "clarifying_questions" then .arr []
  else if field = "recommended_agents" then .arr []
  else .null

/-- The validation loop of main_agent's `analyze_user_request` (lines
143-153): back-fill `needs_more_info`, `response_message`, `confidence`
from the defaults table, then ensure the two list fields. -/
def mainValidateAnalysisFields (j : JObj) : JObj :=
  let j := ensureField j "needs_more_info" (get_default_field_value "needs_more_info")
  let j := ensureField j "response_message" (get_default_field_value "response_message")
  let j := ensureField j "confidence" (get_default_field_value "confidence")
  let j := ensureField j "clarifying_questions" (.arr [])
  ensureField j "recommended_agents" (.arr [])

/-! ## Helper lemmas for the driver -/

theorem foldlMax_mem (f : FileEntry) (fs : List FileEntry) :
    fs.foldl (fun acc g => if g.mtime > acc.mtime then g else acc) f ∈ f :: fs := by
  induction fs generalizing f with
  | nil => simp
  | cons g gs ih =>
    simp only [List.foldl_cons]
    have h := ih (if g.mtime > f.mtime then g else f)
    rcases List.mem_cons.1 h with h1 | h1
    · rw [h1]
      by_cases hc : g.mtime > f.mtime <;> simp [hc]
    · simp [List.mem_cons, h1]

theorem foldlMax_le (f : FileEntry) (fs : List FileEntry) :
    ∀ g ∈ f :: fs,
      g.mtime ≤ (fs.foldl (fun acc g => if g.mtime > acc.mtime then g else acc) f).mtime := by
  induction fs generalizing f with
  | nil => simp
  | cons g gs ih =>
    intro x hx
    simp only [List.foldl_cons]
    have hstep : f.mtime ≤ (if g.mtime > f.mtime then g else f).mtime ∧
        g.mtime ≤ (if g.mtime > f.mtime then g else f).mtime := by
      by_cases hc : g.mtime > f.mtime <;> simp [hc] <;> omega
    rcases List.mem_cons.1 hx with h1 | h1
    · subst h1
      exact le_trans hstep.1 (ih _ _ (List.mem_cons_self _ _))
    · rcases List.mem_cons.1 h1 with h2 | h2
      · subst h2
        exact le_trans hstep.2 (ih _ _ (List.mem_cons_self _ _))
      · exact ih _ _ (List.mem_cons_of_mem _ h2)

theorem maxByMtime_mem {l : List FileEntry} {f : FileEntry}
    (h : maxByMtime l = some f) : f ∈ l := by
  cases l with
  | nil => simp [maxByMtime] at h
  | cons x xs =>
    simp only [maxByMtime, Option.some.injEq] at h
    rw [← h]
    exact foldlMax_mem x xs

theorem maxByMtime_le {l : List FileEntry} {f : FileEntry}
    (h : maxByMtime l = some f) : ∀ g ∈ l, g.mtime ≤ f.mtime := by
  cases l with
  | nil => simp [maxByMtime] at h
  | cons x xs =>
    simp only [maxByMtime, Option.some.injEq] at h
    rw [← h]
    exact foldlMax_le x xs

theorem mem_foundFiles {dir : List FileEntry} {patterns : List String} {f : FileEntry}
    (h : f ∈ foundFiles dir patterns) :
    f ∈ dir ∧ f.name ≠ "goose.py" ∧ ∃ pat ∈ patterns, globMatch pat f.name = true := by
  unfold foundFiles at h
  rcases List.mem_bind.1 h with ⟨pat, hpat, hf⟩
  rcases List.mem_filter.1 hf with ⟨hmem, hpred⟩
  simp only [Bool.and_eq_true, bne_iff_ne, ne_eq] at hpred
  exact ⟨hmem, hpred.2, pat, hpat, hpred.1⟩

/-! ## Claim theorems: automation driver and orchestrator -/

/-- C8: `find_generated_file`, given the file patterns and the working
directory's files with their modification times, excludes the driver's
own script file and returns the most recently modified matching file if
and only if that file was modified within the 2-minute freshness window,
reporting none otherwise. -/
theorem find_generated_file_selects_fresh_latest
    (dir : List FileEntry) (patterns : List String) (now : Int) :
    (∀ f, find_generated_file dir patterns now = some f →
      f ∈ foundFiles dir patterns ∧ f.name ≠ "goose.py" ∧
      now - f.mtime < 120 ∧ ∀ g ∈ foundFiles dir patterns, g.mtime ≤ f.mtime)
    ∧ (find_generated_file dir patterns now = none →
      ∀ g ∈ foundFiles dir patterns, now - g.mtime < 120 →
        ∃ h ∈ foundFiles dir patterns, g.mtime < h.mtime) := by
  constructor
  · intro f hf
    unfold find_generated_file at hf
    split at hf
    · exact absurd hf (by simp)
    · rename_i m hmax
      split at hf
      · cases hf
        have hmem := maxByMtime_mem hmax
        refine ⟨hmem, (mem_foundFiles hmem).2.1, by assumption, maxByMtime_le hmax⟩
      · exact absurd hf (by simp)
  · intro hnone g hg hfresh
    unfold find_generated_file at hnone
    split at hnone
    · rename_i hmax
      exfalso
      cases hfound : foundFiles dir patterns with
      | nil => rw [hfound] at hg; exact absurd hg (by simp)
      | cons x xs => rw [hfound] at hmax; exact absurd hmax (by simp [maxByMtime])
    · rename_i m hmax
      split at hnone
      · exact absurd hnone (by simp)
      · rename_i hm
        refine ⟨m, maxByMtime_mem hmax, ?_⟩
        have hle := maxByMtime_le hmax g hg
        omega

/-- C8 witness: two `*.py` matches, one modified 10 seconds ago and one
10 minutes ago — the 10-second-old file is returned, it is a match, it
is fresh, and it dominates every match. -/
theorem find_generated_file_selects_fresh_latest_check :
    find_generated_file [⟨"fresh.py", 990⟩, ⟨"old.py", 400⟩] ["*.py"] 1000 =
      some ⟨"fresh.py", 990⟩ ∧
    ((⟨"fresh.py", 990⟩ : FileEntry) ∈ foundFiles [⟨"fresh.py", 990⟩, ⟨"old.py", 400⟩] ["*.py"] ∧
      ("fresh.py" : String) ≠ "goose.py" ∧ (1000 : Int) - 990 < 120 ∧
      ∀ g ∈ foundFiles [⟨"fresh.py", 990⟩, ⟨"old.py", 400⟩] ["*.py"], g.mtime ≤ (990 : Int)) :=
  ⟨rfl, (find_generated_file_selects_fresh_latest
    [⟨"fresh.py", 990⟩, ⟨"old.py", 400⟩] ["*.py"] 1000).1 ⟨"fresh.py", 990⟩ rfl⟩

/-- C10: the generation polling loop performs at most 24 five-second
polls (at most 120 seconds of waiting, the configured ceiling), and when
the worker is still not done at every poll up to the ceiling, the
orchestrator produces the timeout outcome `(false, none)` without
raising (the model is a total function). -/
theorem generation_poll_bounded_and_times_out
    (done : Nat → Bool) (workerResult : Bool × Option FileEntry) :
    generationPollSleeps done ≤ 24 ∧
    5 * generationPollSleeps done ≤ 120 ∧
    ((∀ k, k ≤ 24 → done k = false) →
      generation_outcome done workerResult = (false, none)) := by
  have hgo : ∀ fuel k, generationPollGo done fuel k ≤ k + fuel := by
    intro fuel
    induction fuel with
    | zero => intro k; simp [generationPollGo]
    | succ n ih =>
      intro k
      unfold generationPollGo
      by_cases h : done k
      · simp only [h, if_true]
        omega
      · simp only [h, Bool.false_eq_true, if_false]
        have := ih (k + 1)
        omega
  have hgoall : ∀ fuel k, (∀ j, j ≤ 24 → done j = false) → k + fuel ≤ 24 →
      generationPollGo done fuel k = k + fuel := by
    intro fuel
    induction fuel with
    | zero => intro k _ _; simp [generationPollGo]
    | succ n ih =>
      intro k hall hb
      unfold generationPollGo
      rw [hall k (by omega)]
      simp only [Bool.false_eq_true, if_false]
      rw [ih (k + 1) hall (by omega)]
      omega
  have hb : generationPollSleeps done ≤ 24 := by
    unfold generationPollSleeps
    simpa using hgo 24 0
  refine ⟨hb, by omega, ?_⟩
  intro hall
  unfold generation_outcome generationPollSleeps
  rw [hgoall 24 0 hall (by omega)]
  rw [hall 24 (by omega)]
  simp

/-- C10 witness: a worker that is never done yields the timeout outcome,
after at most 24 polls. -/
theorem generation_poll_bounded_and_times_out_check :
    generationPollSleeps (fun _ => false) ≤ 24 ∧
    generation_outcome (fun _ => false) (true, some ⟨"calculator.py", 0⟩) = (false, none) :=
  ⟨(generation_poll_bounded_and_times_out (fun _ => false) (true, some ⟨"calculator.py", 0⟩)).1,
   (generation_poll_bounded_and_times_out (fun _ => false) (true, some ⟨"calculator.py", 0⟩)).2.2
     (fun _ _ => rfl)⟩

/-- Every exit path of `run_automation` produces the same cleaned-up
driver state: the monitoring flag is cleared and the process is in the
state `cleanup` leaves it in. -/
theorem run_automation_shape (b : SessionBehavior) (patterns : List String) :
    ∃ s f, run_automation b patterns =
      ⟨s, f, false, aliveAfterCleanup b.proc⟩ := by
  unfold run_automation
  split
  · exact ⟨_, _, rfl⟩
  · split
    · exact ⟨_, _, rfl⟩
    · split
      · split
        · exact ⟨_, _, rfl⟩
        · exact ⟨_, _, rfl⟩
      · split
        · exact ⟨_, _, rfl⟩
        · split
          · split
            · exact ⟨_, _, rfl⟩
            · exact ⟨_, _, rfl⟩
          · exact ⟨_, _, rfl⟩

/-- C5 (amended): for every session — success, artifact-not-found, or an
exception thrown anywhere in the workflow — `cleanup()` is invoked
unconditionally before `run_automation` returns (the monitoring flag is
cleared and the process is left in cleanup's final state on every path),
and whenever the graceful `exit` write does not raise, the escalation
(exit command, then `terminate()`, then `kill()`) leaves the process not
alive when `cleanup()` returns. -/
theorem cleanup_runs_on_every_path (b : SessionBehavior) (patterns : List String) :
    (run_automation b patterns).monitoringAfter = false ∧
    (run_automation b patterns).aliveAfter = aliveAfterCleanup b.proc ∧
    (b.proc.exitCmdOk = true → (run_automation b patterns).aliveAfter = false) := by
  obtain ⟨s, f, h⟩ := run_automation_shape b patterns
  rw [h]
  refine ⟨rfl, rfl, ?_⟩
  intro hok
  cases h0 : b.proc.alive0 <;> cases h1 : b.proc.alive1 <;> cases h2 : b.proc.alive2 <;>
    simp [aliveAfterCleanup, hok, h0, h1, h2]

/-- C5 witness: a session that finds and executes its artifact, whose
cleanup write succeeds: the process is not alive afterwards. -/
theorem cleanup_runs_on_every_path_check :
    (run_automation
      ⟨true, true, [⟨"scraper.py", 990⟩], 1000, false, [], 0, true, ⟨true, true, true, true⟩⟩
      ["*.py"]).monitoringAfter = false ∧
    (run_automation
      ⟨true, true, [⟨"scraper.py", 990⟩], 1000, false, [], 0, true, ⟨true, true, true, true⟩⟩
      ["*.py"]).aliveAfter = false :=
  ⟨(cleanup_runs_on_every_path _ ["*.py"]).1,
   (cleanup_runs_on_every_path
     ⟨true, true, [⟨"scraper.py", 990⟩], 1000, false, [], 0, true, ⟨true, true, true, true⟩⟩
     ["*.py"]).2.2 rfl⟩

/-- A completed session whose process is alive when cleanup starts and
whose graceful `exit` write raises (e.g. a broken stdin pipe). -/
def brokenPipeSession : SessionBehavior :=
  ⟨true, true, [⟨"scraper.py", 990⟩], 1000, false, [], 0, true, ⟨true, false, true, true⟩⟩

/-- C5 counterexample: `cleanup()` is invoked, but the exception from the
`exit` write is swallowed by cleanup's own `except` handler before
`terminate`/`kill` run, so the external process is still alive after
`cleanup()` returns — against the claim that the process is never alive
afterwards. -/
theorem cleanup_write_failure_leaves_process_alive :
    (run_automation brokenPipeSession ["*.py"]).success = true ∧
    (run_automation brokenPipeSession ["*.py"]).monitoringAfter = false ∧
    (run_automation brokenPipeSession ["*.py"]).aliveAfter = true := by
  refine ⟨rfl, rfl, rfl⟩

/-- C6: `run_automation` never raises to its caller (it is a total
function into a result value; the `except` handlers of lines 293-298
catch everything), and on session start failure, prompt send failure, or
artifact discovery failure after the built-in retry, it returns exactly
the pair `(False, None)`. -/
theorem run_automation_failure_returns_false_none
    (b : SessionBehavior) (patterns : List String) :
    (b.startOk = false →
      (run_automation b patterns).success = false ∧ (run_automation b patterns).file = none) ∧
    (b.sendOk = false →
      (run_automation b patterns).success = false ∧ (run_automation b patterns).file = none) ∧
    (find_generated_file b.dir1 patterns b.now1 = none →
      (b.retryWriteRaises = true ∨ find_generated_file b.dir2 patterns b.now2 = none) →
      (run_automation b patterns).success = false ∧ (run_automation b patterns).file = none) := by
  refine ⟨?_, ?_, ?_⟩
  · intro h
    simp [run_automation, h]
  · intro h
    unfold run_automation
    cases hs : b.startOk <;> simp [h]
  · intro hfind1 hretry
    unfold run_automation
    cases hs : b.startOk
    · simp
    · cases hp : b.sendOk
      · simp
      · simp only [Bool.not_true, Bool.false_eq_true, if_false, hfind1]
        rcases hretry with hr | hfind2
        · simp [hr]
        · cases hrw : b.retryWriteRaises <;> simp [hfind2]

/-- C6 witness: a session whose start fails, and a session that never
finds a fresh artifact (first directory empty, retry write succeeds,
second directory holds only a stale file), both return `(False, None)`. -/
theorem run_automation_failure_returns_false_none_check :
    ((run_automation ⟨false, true, [], 0, false, [], 0, true, ⟨false, true, false, false⟩⟩
        ["*.py"]).success = false ∧
      (run_automation ⟨false, true, [], 0, false, [], 0, true, ⟨false, true, false, false⟩⟩
        ["*.py"]).file = none) ∧
    ((run_automation ⟨true, true, [], 1000, false, [⟨"stale.py", 100⟩], 1000, true,
        ⟨true, true, false, false⟩⟩ ["*.py"]).success = false ∧
      (run_automation ⟨true, true, [], 1000, false, [⟨"stale.py", 100⟩], 1000, true,
        ⟨true, true, false, false⟩⟩ ["*.py"]).file = none) :=
  ⟨(run_automation_failure_returns_false_none _ ["*.py"]).1 rfl,
   (run_automation_failure_returns_false_none
     ⟨true, true, [], 1000, false, [⟨"stale.py", 100⟩], 1000, true, ⟨true, true, false, false⟩⟩
     ["*.py"]).2.2 rfl (Or.inr rfl)⟩

/-- C9 (amended): when an artifact was discovered but executing it
fails, `run_automation` returns `success = False` together with the
artifact path (`return False, self.generated_file`, line 286); the
orchestrator's check `if success and generated_file:` then takes the
failure branch, so the generation is reported as failed and the project
is left untouched (not marked `scraper_generated`) even though the
artifact path was returned. -/
theorem exec_failure_returns_false_with_artifact
    (b : SessionBehavior) (patterns : List String) (f : FileEntry) (p : ScrapingProject)
    (hs : b.startOk = true) (hp : b.sendOk = true)
    (hf : find_generated_file b.dir1 patterns b.now1 = some f)
    (he : b.execOk = false) :
    (run_automation b patterns).success = false ∧
    (run_automation b patterns).file = some f ∧
    handle_generation_result (run_automation b patterns).success
      (run_automation b patterns).file p = (.failed, p) := by
  have hrun : run_automation b patterns = ⟨false, some f, false, aliveAfterCleanup b.proc⟩ := by
    unfold run_automation
    simp [hs, hp, hf, he]
  rw [hrun]
  exact ⟨rfl, rfl, rfl⟩

/-- A session that discovers a fresh artifact whose execution fails. -/
def execFailSession : SessionBehavior :=
  ⟨true, true, [⟨"scraper.py", 990⟩], 1000, false, [], 0, false, ⟨true, true, false, false⟩⟩

/-- C9 counterexample: the artifact is discovered (`file = some ...`),
executing it fails, and the overall result reports the generation as
failed — the orchestrator emits the failure outcome and the project is
not marked `scraper_generated` — against the claim that the artifact is
still treated as generated. -/
theorem exec_failure_reported_as_generation_failure :
    (run_automation execFailSession ["*.py"]).file = some ⟨"scraper.py", 990⟩ ∧
    (run_automation execFailSession ["*.py"]).success = false ∧
    (handle_generation_result (run_automation execFailSession ["*.py"]).success
      (run_automation execFailSession ["*.py"]).file emptyProject).1 = GenOutcome.failed ∧
    (handle_generation_result (run_automation execFailSession ["*.py"]).success
      (run_automation execFailSession ["*.py"]).file emptyProject).2.status =
      "link_collection" := by
  refine ⟨rfl, rfl, rfl, rfl⟩

/-- C9 witness for the amended theorem, at the same concrete session. -/
theorem exec_failure_returns_false_with_artifact_check :
    (run_automation execFailSession ["*.py"]).success = false ∧
    (run_automation execFailSession ["*.py"]).file = some ⟨"scraper.py", 990⟩ ∧
    handle_generation_result (run_automation execFailSession ["*.py"]).success
      (run_automation execFailSession ["*.py"]).file emptyProject =
      (.failed, emptyProject) :=
  exec_failure_returns_false_with_artifact execFailSession ["*.py"]
    ⟨"scraper.py", 990⟩ emptyProject rfl rfl rfl rfl

/-! ## Claim theorems: conversation controller -/

theorem domainOf_ok_of_wellFormed {u : String} (h : wellFormedUrl u = true) :
    ∃ d, domainOf u = .ok d := by
  unfold wellFormedUrl at h
  unfold domainOf
  split
  · rename_i hg
    rw [hg] at h
    simp at h
  · exact ⟨_, rfl⟩

theorem domainsOf_ok_of_wellFormed {l : List String}
    (h : ∀ u ∈ l, wellFormedUrl u = true) : ∃ ds, domainsOf l = .ok ds := by
  induction l with
  | nil => exact ⟨[], rfl⟩
  | cons u us ih =>
    obtain ⟨d, hd⟩ := domainOf_ok_of_wellFormed (h u (List.mem_cons_self u us))
    obtain ⟨ds, hds⟩ := ih (fun x hx => h x (List.mem_cons_of_mem u hx))
    refine ⟨d :: ds, ?_⟩
    unfold domainsOf
    rw [hd, hds]
    rfl

/-- A concrete page analysis used in the concrete scenarios below. -/
def sampleAnalysis : PageAnalysis := ⟨some ["price", "title"], some "e-commerce"⟩

/-- A project on its fourth inbound message (6 history entries, so
`exchange_count = 3` once the new user message is appended is already
reflected here), with one collected URL and one cached page analysis:
the forcing-rule guard holds. -/
def forcingProj : ScrapingProject :=
  { target_urls := ["https://example.com/products"],
    page_analyses := [("https://example.com/products", sampleAnalysis)],
    context_history :=
      [⟨"user", "a"⟩, ⟨"assistant", "b"⟩, ⟨"user", "c"⟩,
       ⟨"assistant", "d"⟩, ⟨"user", "e"⟩, ⟨"assistant", "f"⟩],
    status := "technical_details" }

/-- C1 counterexample: with the forcing guard satisfied, a summary LLM
call that succeeds but answers with stage `conversation_deepening` is
returned verbatim — the stage of the returned analysis is *not*
`project_summary_and_schema`, against the claim that it is forced
unconditionally regardless of LLM output. -/
theorem forcing_stage_follows_llm_output :
    forcingGuard forcingProj = true ∧
    (analyze_scraping_requirements none
        (some [("stage", JVal.str "conversation_deepening")]) "go ahead" forcingProj).map
      (fun a => getK a "stage") = .ok (some (JVal.str "conversation_deepening")) ∧
    ("conversation_deepening" : String) ≠ "project_summary_and_schema" :=
  ⟨rfl, rfl, by decide⟩

/-- C1 (amended): when `exchange_count ≥ 3`, `target_urls` is non-empty
and `page_analyses` is non-empty, the controller skips normal analysis
and calls the summary generator directly. On a successful summary LLM
call the parsed JSON is returned verbatim, whatever its stage; only when
the LLM call fails (and every stored URL contains `//`) does the
deterministic fallback run, whose stage is `project_summary_and_schema`. -/
theorem forcing_rule_routes_to_summary_generator
    (llmMain llmSummary : Option JObj) (msg : String) (p : ScrapingProject)
    (hguard : forcingGuard p = true) :
    analyze_scraping_requirements llmMain llmSummary msg p =
      generate_final_project_summary llmSummary p ∧
    (∀ j, llmSummary = some j →
      analyze_scraping_requirements llmMain llmSummary msg p = .ok j) ∧
    (llmSummary = none → (∀ u ∈ p.target_urls, wellFormedUrl u = true) →
      ∃ o, analyze_scraping_requirements llmMain llmSummary msg p = .ok o ∧
        getK o "stage" = some (.str "project_summary_and_schema")) := by
  have hroute : analyze_scraping_requirements llmMain llmSummary msg p =
      generate_final_project_summary llmSummary p := by
    unfold analyze_scraping_requirements
    rw [if_pos hguard]
  refine ⟨hroute, ?_, ?_⟩
  · intro j hj
    rw [hroute, hj]
    rfl
  · intro hnone hwf
    rw [hroute, hnone]
    obtain ⟨ds, hds⟩ := domainsOf_ok_of_wellFormed hwf
    unfold generate_final_project_summary create_fallback_summary
    rw [hds]
    exact ⟨_, rfl, rfl⟩

/-- C1 witness: at the concrete forcing-rule project, with a failing
summary LLM call, the analyzer returns the fallback summary whose stage
is `project_summary_and_schema`. -/
theorem forcing_rule_routes_to_summary_generator_check :
    forcingGuard forcingProj = true ∧
    (∃ o, analyze_scraping_requirements none none "go ahead" forcingProj = .ok o ∧
      getK o "stage" = some (.str "project_summary_and_schema")) :=
  ⟨rfl, (forcing_rule_routes_to_summary_generator none none "go ahead" forcingProj rfl).2.2
    rfl (by intro u hu; simp only [forcingProj, List.mem_singleton] at hu; subst hu; rfl)⟩

/-- A project whose stored page-analysis key has no `//`. -/
def badKeyProj : ScrapingProject :=
  { page_analyses := [("badkey", sampleAnalysis)] }

/-- C4 counterexample: (a) a stored page-analysis key of arbitrary string
form without `//` makes `analyze_scraping_requirements` raise
`IndexError` (line 125, `url.split("//")[1]`) instead of returning a
result; (b) on the forcing path a successful LLM call returning the
empty JSON object is passed through unvalidated, so the result lacks
the required `stage` field (and all others). -/
theorem analyzer_raises_on_malformed_page_key :
    analyze_scraping_requirements none none "hi" badKeyProj = .error "IndexError" ∧
    analyze_scraping_requirements none (some []) "go ahead" forcingProj = .ok [] ∧
    hasKey [] "stage" = false ∧ hasKey [] "response_message" = false :=
  ⟨rfl, rfl, rfl, rfl⟩

/-- C4 (amended): off the forcing path, provided every stored
page-analysis key contains `//`, `analyze_scraping_requirements` returns
a result for every message, project and LLM outcome — any LLM transport
or parse failure is recovered by the deterministic fallback — and the
result always contains the fields `stage`, `response_message`,
`probing_questions`, `detected_urls` and `insights_gathered`. On the
forcing path a successful LLM response is returned unvalidated, and a
malformed stored key raises `IndexError`. -/
theorem analyzer_total_and_valid_off_forcing_path
    (llmMain llmSummary : Option JObj) (msg : String) (p : ScrapingProject)
    (hguard : forcingGuard p = false)
    (hkeys : ∀ k ∈ p.page_analyses.map (·.1), wellFormedUrl k = true) :
    ∃ o, analyze_scraping_requirements llmMain llmSummary msg p = .ok o ∧
      hasKey o "stage" = true ∧ hasKey o "response_message" = true ∧
      hasKey o "probing_questions" = true ∧ hasKey o "detected_urls" = true ∧
      hasKey o "insights_gathered" = true := by
  obtain ⟨ds, hds⟩ := domainsOf_ok_of_wellFormed hkeys
  unfold analyze_scraping_requirements
  rw [if_neg (by simp [hguard]), hds]
  cases llmMain with
  | some j =>
    refine ⟨validateAnalysisFields j, rfl, ?_, ?_, ?_, ?_, ?_⟩ <;>
      · unfold validateAnalysisFields
        repeat
          first
          | exact hasKey_ensureField_self _ _ _
          | apply hasKey_ensureField_mono
  | none =>
    exact ⟨create_fallback_analysis msg, rfl, rfl, rfl, rfl, rfl, rfl⟩

/-- C4 witness: a fresh project and a failing LLM call — the fallback
analysis is returned with all required fields present. -/
theorem analyzer_total_and_valid_off_forcing_path_check :
    ∃ o, analyze_scraping_requirements none none
        "scrape https://example.com/products please" emptyProject = .ok o ∧
      hasKey o "stage" = true ∧ hasKey o "response_message" = true ∧
      hasKey o "probing_questions" = true ∧ hasKey o "detected_urls" = true ∧
      hasKey o "insights_gathered" = true :=
  analyzer_total_and_valid_off_forcing_path none none
    "scrape https://example.com/products please" emptyProject rfl
    (by intro k hk; simp [emptyProject] at hk)

/-- C7 counterexample: a parseable LLM response carrying only `stage`
and `response_message` — the web-scraper analyzer's validation loop
back-fills the required fields `confidence` and `next_action` with
Python `None` (`_get_default_value` has no entry for them and returns
`None`), so a required field in the returned analysis *is* null,
against the claim that every back-filled default is non-absent and
non-null. -/
theorem missing_confidence_backfilled_with_null :
    getK (validateAnalysisFields
      [("stage", JVal.str "conversation_deepening"), ("response_message", JVal.str "ok")])
      "confidence" = some JVal.null ∧
    getK (validateAnalysisFields
      [("stage", JVal.str "conversation_deepening"), ("response_message", JVal.str "ok")])
      "next_action" = some JVal.null :=
  ⟨rfl, rfl⟩

/-- C7 (amended): missing-field back-filling differs between the two
analyzers. main_agent's validation loop fills every missing required
field with the stated fixed, non-null defaults (`needs_more_info =
false`, a default response text, `confidence = "medium"`, empty lists
for the list fields). The web-scraper analyzer fills a missing `stage`
and `response_message` with non-null defaults and its list fields with
empty lists, but back-fills its required fields `next_action` and
`confidence` with null, because its defaults table has no entry for
them. -/
theorem backfill_defaults_by_agent (j : JObj) :
    (hasKey j "stage" = false →
      getK (validateAnalysisFields j) "stage" = some (.str "conversation_deepening")) ∧
    (hasKey j "probing_questions" = false →
      getK (validateAnalysisFields j) "probing_questions" = some (.arr [])) ∧
    (hasKey j "detected_urls" = false →
      getK (validateAnalysisFields j) "detected_urls" = some (.arr [])) ∧
    (hasKey j "insights_gathered" = false →
      getK (validateAnalysisFields j) "insights_gathered" = some (.arr [])) ∧
    (hasKey j "confidence" = false →
      getK (validateAnalysisFields j) "confidence" = some .null) ∧
    (hasKey j "next_action" = false →
      getK (validateAnalysisFields j) "next_action" = some .null) ∧
    (hasKey j "needs_more_info" = false →
      getK (mainValidateAnalysisFields j) "needs_more_info" = some (.bool false)) ∧
    (hasKey j "confidence" = false →
      getK (mainValidateAnalysisFields j) "confidence" = some (.str "medium")) ∧
    (hasKey j "clarifying_questions" = false →
      getK (mainValidateAnalysisFields j) "clarifying_questions" = some (.arr [])) ∧
    (hasKey j "recommended_agents" = false →
      getK (mainValidateAnalysisFields j) "recommended_agents" = some (.arr [])) := by
  refine ⟨?_, ?_, ?_, ?_, ?_, ?_, ?_, ?_, ?_, ?_⟩ <;>
    · intro h
      try unfold validateAnalysisFields
      try unfold mainValidateAnalysisFields
      repeat rw [getK_ensureField_ne _ _ _ _ (by decide)]
      rw [getK_ensureField_absent]
      all_goals try rfl
      all_goals repeat rw [hasKey_ensureField_ne _ _ _ _ (by decide)]
      all_goals exact h

/-- C7 witness: on the empty parsed object, main_agent back-fills
`needs_more_info = false` and `confidence = "medium"`, while the
web-scraper analyzer back-fills `confidence` with null. -/
theorem backfill_defaults_by_agent_check :
    getK (mainValidateAnalysisFields []) "needs_more_info" = some (JVal.bool false) ∧
    getK (mainValidateAnalysisFields []) "confidence" = some (JVal.str "medium") ∧
    getK (validateAnalysisFields []) "confidence" = some JVal.null := by
  have h := backfill_defaults_by_agent []
  exact ⟨h.2.2.2.2.2.2.1 rfl, h.2.2.2.2.2.2.2.1 rfl, h.2.2.2.2.1 rfl⟩

theorem analyzeAndStoreUrls_preserves (pageOracle : String → Option PageAnalysis)
    (urls : List String) (p : ScrapingProject) :
    (analyzeAndStoreUrls pageOracle urls p).status = p.status ∧
    (analyzeAndStoreUrls pageOracle urls p).target_urls = p.target_urls := by
  induction urls generalizing p with
  | nil => exact ⟨rfl, rfl⟩
  | cons u rest ih =>
    unfold analyzeAndStoreUrls
    cases pageOracle u with
    | some a => exact ih _
    | none => exact ih p

theorem applyDetectedUrls_status (pageOracle : String → Option PageAnalysis)
    (analysis : JObj) (p : ScrapingProject) :
    (applyDetectedUrls pageOracle analysis p).status = p.status := by
  unfold applyDetectedUrls
  dsimp only
  split
  · rfl
  · split
    · rfl
    · exact (analyzeAndStoreUrls_preserves _ _ _).1

theorem applyStage_status (analysis : JObj) (p : ScrapingProject) :
    (applyStage analysis p).status = p.status ∨
    ∃ s, getK analysis "stage" = some (.str s) ∧ s ≠ "" ∧
      (applyStage analysis p).status = s := by
  unfold applyStage
  split
  · rename_i s hs
    by_cases he : s = ""
    · left; simp [he]
    · right
      refine ⟨s, hs, he, ?_⟩
      simp [he]
  · left; rfl

theorem applyStage_target_urls (analysis : JObj) (p : ScrapingProject) :
    (applyStage analysis p).target_urls = p.target_urls := by
  unfold applyStage
  split
  · split <;> rfl
  · rfl

theorem applyDetectedUrls_count_of_mem (pageOracle : String → Option PageAnalysis)
    (analysis : JObj) (p : ScrapingProject) (u : String) (hu : u ∈ p.target_urls) :
    (applyDetectedUrls pageOracle analysis p).target_urls.count u =
      p.target_urls.count u := by
  unfold applyDetectedUrls
  dsimp only
  split
  · rfl
  · split
    · rfl
    · rw [(analyzeAndStoreUrls_preserves _ _ _).2]
      have hz : ((strListOf (getK analysis "detected_urls")).filter
          (fun x => !p.target_urls.contains x)).count u = 0 := by
        rw [List.count_eq_zero]
        intro hmem
        have hpred := (List.mem_filter.1 hmem).2
        have hcont : p.target_urls.contains u = true := by
          simpa [List.elem_iff] using hu
        rw [hcont] at hpred
        simp at hpred
      simp only [List.count_append, hz, Nat.add_zero]

/-- Modelled from the spec: the position of a stage in the forward order
`link_collection → conversation_deepening → requirements_clarification →
technical_details → project_summary_and_schema →
awaiting_final_confirmation → confirmed_ready_for_generation →
scraper_generated` (used only to compare the code's behaviour with the
claimed monotonicity; the code itself has no such order). -/
def stageIdx (s : String) : Nat :=
  if s = "link_collection" then 0
  else if s = "conversation_deepening" then 1
  else if s = "requirements_clarification" then 2
  else if s = "technical_details" then 3
  else if s = "project_summary_and_schema" then 4
  else if s = "awaiting_final_confirmation" then 5
  else if s = "confirmed_ready_for_generation" then 6
  else if s = "scraper_generated" then 7
  else 0

/-- An LLM analysis proposing stage `technical_details`. -/
def techStageAnalysis : JObj :=
  [("stage", JVal.str "technical_details"), ("response_message", JVal.str "ok")]

/-- C2 counterexample: a turn whose LLM proposes `technical_details`
followed by a turn whose LLM call fails. The fallback analysis always
carries stage `conversation_deepening`, so `Project.status` moves
backwards in the stage order — the status sequence of this two-turn run
is strictly decreasing, against the claimed monotonicity invariant. -/
theorem status_sequence_can_decrease :
    (handle_message (some techStageAnalysis) none (fun _ => none)
        "I want to scrape product data" emptyProject).map (·.status) =
      .ok "technical_details" ∧
    ((handle_message (some techStageAnalysis) none (fun _ => none)
        "I want to scrape product data" emptyProject).bind
      (handle_message none none (fun _ => none) "please continue")).map (·.status) =
      .ok "conversation_deepening" ∧
    stageIdx "conversation_deepening" < stageIdx "technical_details" :=
  ⟨rfl, rfl, by decide⟩

/-- C2 (amended): `handle_message` performs no ordering check: on a
successful turn the status is either set to `awaiting_final_confirmation`
(summary branch), or overwritten with whatever non-empty stage string the
analysis carries, or left unchanged (no truthy stage). Nothing makes the
resulting sequence non-decreasing in the stage order; the fallback
analysis used on any LLM failure always carries the early stage
`conversation_deepening`, so the status can move backwards. -/
theorem status_overwritten_with_analysis_stage
    (llmMain llmSummary : Option JObj) (pageOracle : String → Option PageAnalysis)
    (msg : String) (p p' : ScrapingProject)
    (h : handle_message llmMain llmSummary pageOracle msg p = .ok p') :
    p'.status = "awaiting_final_confirmation" ∨
    (∃ a s, analyze_scraping_requirements llmMain llmSummary msg
        { p with context_history := p.context_history ++ [⟨"user", msg⟩] } = .ok a ∧
      getK a "stage" = some (.str s) ∧ s ≠ "" ∧ p'.status = s) ∨
    p'.status = p.status := by
  unfold handle_message at h
  dsimp only at h
  split at h
  · simp at h
  · rename_i analysis hana
    split at h
    · simp only [Except.ok.injEq] at h
      subst h
      left
      rfl
    · split at h
      · rename_i s hresp
        simp only [Except.ok.injEq] at h
        subst h
        rcases applyStage_status analysis
            (applyDetectedUrls pageOracle analysis
              { p with context_history := p.context_history ++ [⟨"user", msg⟩] }) with
          hkeep | ⟨s', hget, hne, hset⟩
        · right; right
          show (applyStage _ _).status = p.status
          rw [hkeep, applyDetectedUrls_status]
        · right; left
          exact ⟨analysis, s', hana, hget, hne, hset⟩
      · simp at h
      · simp at h

/-- A fallback-analysis turn on a fresh project, used as a concrete
instance for the amended C2 theorem. -/
def fallbackTurnResult : ScrapingProject :=
  ((handle_message none none (fun _ => none) "hello" emptyProject).toOption).getD emptyProject

/-- C2 witness: the amended theorem applied to a concrete fallback turn. -/
theorem status_overwritten_with_analysis_stage_check :
    fallbackTurnResult.status = "awaiting_final_confirmation" ∨
    (∃ a s, analyze_scraping_requirements none none "hello"
        { emptyProject with
          context_history := emptyProject.context_history ++ [⟨"user", "hello"⟩] } = .ok a ∧
      getK a "stage" = some (.str s) ∧ s ≠ "" ∧ fallbackTurnResult.status = s) ∨
    fallbackTurnResult.status = emptyProject.status :=
  status_overwritten_with_analysis_stage none none (fun _ => none) "hello"
    emptyProject fallbackTurnResult rfl

/-- C3 counterexample: one turn whose message carries the same URL twice.
The fallback analyzer detects both occurrences; the `not in
project.target_urls` filter checks against the state before the turn, so
both copies pass and `target_urls` ends up holding the URL twice — not
exactly once, against the claimed set-like uniqueness invariant. -/
theorem duplicate_url_in_one_turn_appended_twice :
    (handle_message none none (fun _ => none) "http://a.com http://a.com"
        emptyProject).map (·.target_urls) = .ok ["http://a.com", "http://a.com"] ∧
    (handle_message none none (fun _ => none) "http://a.com http://a.com"
        emptyProject).map (fun q => q.target_urls.count "http://a.com") = .ok 2 :=
  ⟨rfl, rfl⟩

/-- C3 (amended): a URL that is already in `target_urls` at the start of
a turn is never appended again — its multiplicity is unchanged by the
turn. (Duplicates of a *new* URL inside one turn's `detected_urls` are
each appended, so uniqueness holds only across turns.) -/
theorem existing_url_never_reappended
    (llmMain llmSummary : Option JObj) (pageOracle : String → Option PageAnalysis)
    (msg : String) (p p' : ScrapingProject) (u : String)
    (h : handle_message llmMain llmSummary pageOracle msg p = .ok p')
    (hu : u ∈ p.target_urls) :
    p'.target_urls.count u = p.target_urls.count u := by
  unfold handle_message at h
  dsimp only at h
  split at h
  · simp at h
  · rename_i analysis hana
    split at h
    · simp only [Except.ok.injEq] at h
      subst h
      rfl
    · split at h
      · rename_i s hresp
        simp only [Except.ok.injEq] at h
        subst h
        show (applyStage _ _).target_urls.count u = _
        rw [applyStage_target_urls]
        exact applyDetectedUrls_count_of_mem pageOracle analysis _ u hu
      · simp at h
      · simp at h

/-- An LLM analysis that re-detects an already-collected URL. -/
def repeatUrlAnalysis : JObj :=
  [("stage", JVal.str "conversation_deepening"),
   ("response_message", JVal.str "noted"),
   ("detected_urls", JVal.arr [JVal.str "http://a.com"])]

/-- A project that already holds the URL `http://a.com`. -/
def repeatTurnStart : ScrapingProject :=
  { target_urls := ["http://a.com"],
    context_history := [⟨"user", "x"⟩, ⟨"assistant", "y"⟩] }

/-- The project after a turn that re-detects the stored URL. -/
def repeatTurnResult : ScrapingProject :=
  ((handle_message (some repeatUrlAnalysis) none (fun _ => none)
      "here it is again http://a.com" repeatTurnStart).toOption).getD emptyProject

/-- C3 witness: re-detecting a stored URL leaves its multiplicity at 1. -/
theorem existing_url_never_reappended_check :
    repeatTurnResult.target_urls.count "http://a.com" =
      repeatTurnStart.target_urls.count "http://a.com" ∧
    repeatTurnResult.target_urls.count "http://a.com" = 1 :=
  ⟨existing_url_never_reappended (some repeatUrlAnalysis) none (fun _ => none)
      "here it is again http://a.com" repeatTurnStart repeatTurnResult "http://a.com"
      rfl (by simp [repeatTurnStart]),
   rfl⟩
